import Mathlib

/-!
Shallow embedding of the CDK card-distribution core:
`workers/src/database.ts` (DatabaseService over D1), the claim engine in
`workers/src/handlers/claim.ts` (ClaimHandler), the project handlers in
`workers/src/handlers/projects.ts`, the shared helpers in
`workers/shared/utils.ts`, and the D1 schema (tables `projects`, `cards`,
`claim_records` with the unique index `idx_claim_unique` on
`(project_id, ip_hash)`).

The three D1 tables are modelled as lists of rows.  Each `async` method of
the TypeScript service becomes a Lean function from a `DBState` to a result
paired with the successor `DBState`; a thrown exception (a failed insert,
`Project not found`) is modelled as a `none`/failure result with the state
rolled back, matching D1 semantics where a failing statement aborts and
rolls back the whole `batch`.  SQL `RANDOM()` is modelled by an extra
`Nat` parameter selecting an index into the candidate row list.
-/

namespace CDK

/-- A row of the `projects` table (shared/types.ts `Project`). -/
structure Project where
  id : String
  name : String
  password : String
  adminPassword : String
  description : Option String
  isActive : Bool
  limitOnePerUser : Bool
  totalCards : Int
  claimedCards : Int
  createdAt : String
  updatedAt : String
deriving Repr, DecidableEq

/-- A row of the `cards` table (shared/types.ts `Card`). -/
structure Card where
  id : String
  projectId : String
  content : String
  isClaimed : Bool
  claimedAt : Option String
  claimedBy : Option String
deriving Repr, DecidableEq

/-- A row of the `claim_records` table (shared/types.ts `ClaimRecord`). -/
structure ClaimRecord where
  id : String
  projectId : String
  cardContent : String
  claimedAt : String
  ipHash : String
  username : Option String
deriving Repr, DecidableEq

/-- The durable D1 state: the three tables of the schema. -/
structure DBState where
  projects : List Project
  cards : List Card
  records : List ClaimRecord
deriving Repr, DecidableEq

/-- TypeScript `x || null` on an optional string: empty strings collapse
to `null` before being bound into an SQL statement. -/
def orNull (s : Option String) : Option String :=
  match s with
  | none => none
  | some s => if s = "" then none else some s

/-- `SELECT * FROM projects WHERE id = ?` followed by `.first()`. -/
def getProject (st : DBState) (id : String) : Option Project :=
  st.projects.find? (fun p => p.id == id)

/-- `SELECT * FROM cards WHERE project_id = ? AND id = ?` `.first()`. -/
def getCard (st : DBState) (projectId cardId : String) : Option Card :=
  st.cards.find? (fun c => c.projectId == projectId && c.id == cardId)

/-- `SELECT * FROM claim_records WHERE project_id = ? AND ip_hash = ?`
`.first()` (`DatabaseService.hasUserClaimed`). -/
def hasUserClaimed (st : DBState) (projectId ipHash : String) : Option ClaimRecord :=
  st.records.find? (fun r => r.projectId == projectId && r.ipHash == ipHash)

/-- `DatabaseService.createProject`: build the new row (the counters are
overridden to zero), `INSERT INTO projects`.  The insert throws if the
primary key `id` is already taken; in that case nothing is written. -/
def createProject (st : DBState) (name password adminPassword : String)
    (description : Option String) (isActive limitOnePerUser : Bool)
    (id now : String) : Option Project × DBState :=
  if st.projects.any (fun p => p.id == id) then (none, st)
  else
    let newProject : Project :=
      { id := id, name := name, password := password,
        adminPassword := adminPassword, description := orNull description,
        isActive := isActive, limitOnePerUser := limitOnePerUser,
        totalCards := 0, claimedCards := 0, createdAt := now, updatedAt := now }
    (some newProject, { st with projects := st.projects ++ [newProject] })

/-- The `Partial<Project>` argument of `DatabaseService.updateProject`:
exactly the columns its SQL `UPDATE` can set (`id` and `created_at` are
not in the `SET` list). -/
structure ProjectUpdates where
  name : Option String := none
  password : Option String := none
  adminPassword : Option String := none
  description : Option (Option String) := none
  isActive : Option Bool := none
  limitOnePerUser : Option Bool := none
  totalCards : Option Int := none
  claimedCards : Option Int := none

/-- The merged object `{...project, ...updates, updatedAt: now}`. -/
def applyUpdates (p : Project) (u : ProjectUpdates) (now : String) : Project :=
  { p with
    name := u.name.getD p.name,
    password := u.password.getD p.password,
    adminPassword := u.adminPassword.getD p.adminPassword,
    description := orNull (u.description.getD p.description),
    isActive := u.isActive.getD p.isActive,
    limitOnePerUser := u.limitOnePerUser.getD p.limitOnePerUser,
    totalCards := u.totalCards.getD p.totalCards,
    claimedCards := u.claimedCards.getD p.claimedCards,
    updatedAt := now }

/-- `DatabaseService.updateProject`: read the project, merge the partial
update, write every settable column back `WHERE id = ?`. -/
def updateProject (st : DBState) (id : String) (u : ProjectUpdates)
    (now : String) : Option Project × DBState :=
  match getProject st id with
  | none => (none, st)
  | some p =>
    let updated := applyUpdates p u now
    (some updated,
      { st with
        projects := st.projects.map (fun q =>
          if q.id == id then { updated with createdAt := q.createdAt } else q) })

/-- `DatabaseService.addCards`: throws `Project not found` when the
project is absent; otherwise one `INSERT INTO cards` per content string
executed as a single `db.batch` (so a primary-key collision, including a
duplicate among the generated ids themselves, aborts the whole batch),
then `updateProject` bumps `total_cards` by `cards.length`.  The freshly
generated card ids are passed in as `ids`. -/
def addCards (st : DBState) (projectId : String) (cards : List String)
    (ids : List String) (now : String) : Option Nat × DBState :=
  match getProject st projectId with
  | none => (none, st)
  | some project =>
    if ids.length = cards.length ∧ ids.Nodup ∧
        ∀ i ∈ ids, ∀ c ∈ st.cards, c.id ≠ i then
      let newCards := (ids.zip cards).map (fun pr =>
        { id := pr.1, projectId := projectId, content := pr.2,
          isClaimed := false, claimedAt := none, claimedBy := none : Card })
      let st1 : DBState := { st with cards := st.cards ++ newCards }
      (some cards.length,
        (updateProject st1 projectId
          { totalCards := some (project.totalCards + cards.length) } now).2)
    else (none, st)

/-- `DatabaseService.deleteCard`: returns `false` (writing nothing) when
the card is absent or already claimed; otherwise `DELETE FROM cards WHERE
id = ?` and decrement the project's `total_cards`. -/
def deleteCard (st : DBState) (projectId cardId : String)
    (now : String) : Bool × DBState :=
  match getCard st projectId cardId with
  | none => (false, st)
  | some card =>
    if card.isClaimed then (false, st)
    else
      let st1 : DBState := { st with cards := st.cards.filter (fun c => ¬ c.id = cardId) }
      match getProject st1 projectId with
      | none => (true, st1)
      | some project =>
        (true, (updateProject st1 projectId
          { totalCards := some (project.totalCards - 1) } now).2)

/-- `DatabaseService.getRandomAvailableCard`:
`SELECT id FROM cards WHERE project_id = ? AND is_claimed = 0 ORDER BY
RANDOM() LIMIT 1`.  The `RANDOM()` draw is modelled by the index `r`. -/
def getRandomAvailableCard (st : DBState) (projectId : String) (r : Nat) : Option String :=
  let avail := (st.cards.filter (fun c => c.projectId == projectId && !c.isClaimed)).map (fun c => c.id)
  avail.get? (r % avail.length)

/-- Effect of the conditional statement `UPDATE cards SET is_claimed = 1,
claimed_at = ?, claimed_by = ? WHERE id = ? AND is_claimed = 0`. -/
def markClaimedRows (cards : List Card) (cardId ipHash now : String) : List Card :=
  cards.map (fun c =>
    if c.id = cardId ∧ c.isClaimed = false then
      { c with isClaimed := true, claimedAt := some now, claimedBy := some ipHash }
    else c)

/-- The three-statement `db.batch` inside `DatabaseService.claimCard`,
executed as one transaction: the conditional card update, `INSERT INTO
claim_records`, and the `claimed_cards` increment.  The transaction
commits only when the record insert satisfies the `claim_records` primary
key and the schema's unique index `idx_claim_unique (project_id, ip_hash)`;
a constraint violation rolls everything back (`false`). -/
def claimBatch (st : DBState) (projectId cardId content ipHash : String)
    (username : Option String) (now recordId : String) : Bool × DBState :=
  if st.records.any (fun r => r.id == recordId) ∨ (hasUserClaimed st projectId ipHash).isSome then
    (false, st)
  else
    (true,
      { st with
        cards := markClaimedRows st.cards cardId ipHash now,
        records := st.records ++
          [{ id := recordId, projectId := projectId, cardContent := content,
             claimedAt := now, ipHash := ipHash, username := orNull username }],
        projects := st.projects.map (fun p =>
          if p.id == projectId then { p with claimedCards := p.claimedCards + 1 } else p) })

/-- Result of `DatabaseService.claimCard`: `null`, a thrown constraint
violation, or the claimed card object built by the TypeScript code. -/
inductive ClaimCardResult where
  | notAvailable
  | conflict
  | ok (card : Card)
deriving Repr, DecidableEq

/-- `DatabaseService.claimCard`: pre-read the card (`null` when absent or
already claimed), then run the batch; the returned object is built from
the pre-read row with `isClaimed`, `claimedAt`, `claimedBy` overridden. -/
def claimCard (st : DBState) (projectId cardId ipHash : String)
    (username : Option String) (now recordId : String) : ClaimCardResult × DBState :=
  match getCard st projectId cardId with
  | none => (.notAvailable, st)
  | some card =>
    if card.isClaimed then (.notAvailable, st)
    else
      match claimBatch st projectId cardId card.content ipHash username now recordId with
      | (false, st1) => (.conflict, st1)
      | (true, st1) =>
        (.ok { card with isClaimed := true, claimedAt := some now, claimedBy := some ipHash }, st1)

/-- The logical outcome of one run of `ClaimHandler.claimCard`. -/
inductive ClaimOutcome where
  | invalidInput
  | notFound
  | inactive
  | badPassword
  | alreadyClaimed (content : String)
  | exhausted
  | raceLost
  | internalError
  | granted (content : String) (claimedAt : String)
deriving Repr, DecidableEq

/-- The HTTP status each outcome is surfaced with in claim.ts. -/
def httpStatus : ClaimOutcome → Nat
  | .invalidInput => 400
  | .notFound => 404
  | .inactive => 403
  | .badPassword => 401
  | .alreadyClaimed _ => 200
  | .exhausted => 410
  | .raceLost => 500
  | .internalError => 500
  | .granted _ _ => 200

/-- Tail of `ClaimHandler.claimCard` once a card id has been picked: call
`DatabaseService.claimCard`; a `null` result is surfaced as the HTTP 500
failure `领取失败，请重试` (the race-lost outcome), a thrown constraint
violation is caught as the generic 500, and success returns the card
content with its claim timestamp. -/
def claimAfterPick (st : DBState) (projectId cardId ipHash : String)
    (username : Option String) (now recordId : String) : ClaimOutcome × DBState :=
  match claimCard st projectId cardId ipHash username now recordId with
  | (.notAvailable, st1) => (.raceLost, st1)
  | (.conflict, st1) => (.internalError, st1)
  | (.ok card, st1) => (.granted card.content now, st1)

/-- `ClaimHandler.claimCard` with Turnstile disabled: input-shape check,
project lookup, active flag, password, the `limitOnePerUser` short
circuit, the random pick, then the allocation tail.  `ipHash` is the
already-hashed client identity and `username` the session username. -/
def handleClaim (st : DBState) (projectId password ipHash username : String)
    (r : Nat) (now recordId : String) : ClaimOutcome × DBState :=
  if projectId = "" ∨ password = "" then (.invalidInput, st)
  else
    match getProject st projectId with
    | none => (.notFound, st)
    | some project =>
      if project.isActive = false then (.inactive, st)
      else if ¬ project.password = password then (.badPassword, st)
      else
        match (if project.limitOnePerUser then hasUserClaimed st projectId ipHash else none) with
        | some existingClaim => (.alreadyClaimed existingClaim.cardContent, st)
        | none =>
          match getRandomAvailableCard st projectId r with
          | none => (.exhausted, st)
          | some availableCardId =>
            claimAfterPick st projectId availableCardId ipHash (some username) now recordId

/-- `removeDuplicateCards` from shared/utils.ts: `[...new Set(cards)]`,
which keeps the first occurrence of each content in input order. -/
def removeDuplicateCards (cards : List String) : List String :=
  cards.foldl (fun acc card => if card ∈ acc then acc else acc ++ [card]) []

/-- `validateProjectName` from shared/utils.ts. -/
def validateProjectName (name : String) : Bool :=
  name.length ≥ 1 && name.length ≤ 50

/-- `validateProjectPassword` from shared/utils.ts. -/
def validateProjectPassword (password : String) : Bool :=
  password.length ≥ 6 && password.length ≤ 20

/-- `validateProjectDescription` from shared/utils.ts (a missing
description is valid). -/
def validateProjectDescription (description : Option String) : Bool :=
  match description with
  | none => true
  | some d => d.length ≤ 200

/-- `VALIDATION.MAX_CARDS_PER_PROJECT` from shared/types.ts. -/
def MAX_CARDS_PER_PROJECT : Nat := 10000

/-- `ProjectHandler.createProject` (projects.ts): validate the input,
reject an empty card list, always `removeDuplicateCards`, enforce the
card cap, create the project (the handler does not forward a
`limitOnePerUser` field, so the inserted row gets `0`), add the deduped
cards, and report `cardsAdded` as the length of the deduped list.  A
failure in any step returns `none` with whatever state the completed
steps left behind. -/
def createProjectHandler (st : DBState) (name password adminPassword : String)
    (description : Option String) (cards : List String)
    (id : String) (cardIds : List String) (now : String) :
    Option (Project × Nat) × DBState :=
  if ¬ validateProjectName name then (none, st)
  else if ¬ validateProjectPassword password then (none, st)
  else if ¬ validateProjectDescription description then (none, st)
  else if cards.length = 0 then (none, st)
  else
    let deduped := removeDuplicateCards cards
    if deduped.length > MAX_CARDS_PER_PROJECT then (none, st)
    else
      match createProject st name password adminPassword description true false id now with
      | (none, st1) => (none, st1)
      | (some project, st1) =>
        match addCards st1 project.id deduped cardIds now with
        | (none, st2) => (none, st2)
        | (some _, st2) =>
          (some ({ project with totalCards := (deduped.length : Int) }, deduped.length), st2)

/-- `ProjectHandler.addCards` (projects.ts): admin-password gate, then
dedup the batch exactly when `removeDuplicates` (whose TypeScript
destructuring default is `true`) holds, add the processed list, and
report `added` and `duplicates`. -/
def addCardsHandler (st : DBState) (projectId adminPassword : String)
    (cards : List String) (removeDuplicates : Bool)
    (cardIds : List String) (now : String) : Option (Nat × Nat) × DBState :=
  if adminPassword = "" then (none, st)
  else
    match getProject st projectId with
    | none => (none, st)
    | some project =>
      if ¬ project.adminPassword = adminPassword then (none, st)
      else if cards.length = 0 then (none, st)
      else
        let processed := if removeDuplicates then removeDuplicateCards cards else cards
        match addCards st projectId processed cardIds now with
        | (none, st1) => (none, st1)
        | (some added, st1) => (some (added, cards.length - processed.length), st1)

/-- One interleaved schedule of two overlapping executions of
`DatabaseService.claimCard` on the same card id: both requests pass the
`getCard` pre-read (the `await` boundary before `db.batch`) while the
row is still unclaimed, then their batches commit in order A, B.  Each
request's return value is built exactly as in the source: from its own
pre-read row, independently of how many rows its conditional `UPDATE`
matched. -/
def claimCardRace (st : DBState) (projectId cardId ipA ipB : String)
    (userA userB : Option String) (nowA nowB ridA ridB : String) :
    Option Card × Option Card × DBState :=
  match getCard st projectId cardId with
  | none => (none, none, st)
  | some card =>
    if card.isClaimed then (none, none, st)
    else
      let resA := claimBatch st projectId cardId card.content ipA userA nowA ridA
      let retA := if resA.1 then
        some { card with isClaimed := true, claimedAt := some nowA, claimedBy := some ipA }
        else none
      let resB := claimBatch resA.2 projectId cardId card.content ipB userB nowB ridB
      let retB := if resB.1 then
        some { card with isClaimed := true, claimedAt := some nowB, claimedBy := some ipB }
        else none
      (retA, retB, resB.2)

/-- Ids of the project rows. -/
def projIds (st : DBState) : List String := st.projects.map (fun p => p.id)

/-- Ids of the card rows. -/
def cardIds (st : DBState) : List String := st.cards.map (fun c => c.id)

/-- Number of card rows belonging to a project. -/
def cardCount (st : DBState) (projectId : String) : Nat :=
  (st.cards.filter (fun c => c.projectId == projectId)).length

/-- Number of claimed card rows belonging to a project. -/
def claimedCount (st : DBState) (projectId : String) : Nat :=
  (st.cards.filter (fun c => c.projectId == projectId && c.isClaimed)).length

/-- Number of ledger rows belonging to a project. -/
def recordCount (st : DBState) (projectId : String) : Nat :=
  (st.records.filter (fun r => r.projectId == projectId)).length

/-- Number of ledger rows for one `(project_id, ip_hash)` pair. -/
def pairRecordCount (st : DBState) (projectId ipHash : String) : Nat :=
  (st.records.filter (fun r => r.projectId == projectId && r.ipHash == ipHash)).length

/-- States reachable from the empty database through the public
operations of the store: project creation, card addition, card deletion
and card claiming, each with arbitrary arguments (the generated ids and
timestamps are the quantified parameters; every operation already
contains its own constraint checks and fails without writing when they
are violated). -/
inductive Reachable : DBState → Prop where
  | init : Reachable { projects := [], cards := [], records := [] }
  | create {st} (name password adminPassword : String)
      (description : Option String) (isActive limitOnePerUser : Bool)
      (id now : String) :
      Reachable st →
      Reachable (createProject st name password adminPassword description
        isActive limitOnePerUser id now).2
  | add {st} (projectId : String) (cards ids : List String) (now : String) :
      Reachable st →
      Reachable (addCards st projectId cards ids now).2
  | del {st} (projectId cardId now : String) :
      Reachable st →
      Reachable (deleteCard st projectId cardId now).2
  | claim {st} (projectId cardId ipHash : String) (username : Option String)
      (now recordId : String) :
      Reachable st →
      Reachable (claimCard st projectId cardId ipHash username now recordId).2

/-- The inductive invariant tying the `projects` counters to the actual
rows of `cards` and `claim_records`. -/
structure Inv (st : DBState) : Prop where
  proj_nodup : (projIds st).Nodup
  card_nodup : (cardIds st).Nodup
  card_proj : ∀ c ∈ st.cards, c.projectId ∈ projIds st
  rec_proj : ∀ r ∈ st.records, r.projectId ∈ projIds st
  total_eq : ∀ p ∈ st.projects, p.totalCards = (cardCount st p.id : Int)
  claimed_eq : ∀ p ∈ st.projects, p.claimedCards = (claimedCount st p.id : Int)
  records_eq : ∀ p ∈ st.projects, (recordCount st p.id : Int) = p.claimedCards
  pair_unique : ∀ projectId ipHash, pairRecordCount st projectId ipHash ≤ 1

/-- A concrete project row used to evaluate the operations. -/
def demoProject : Project :=
  { id := "p", name := "Demo", password := "secret123",
    adminPassword := "admin-pass", description := none, isActive := true,
    limitOnePerUser := true, totalCards := 2, claimedCards := 0,
    createdAt := "t0", updatedAt := "t0" }

/-- A concrete unclaimed card. -/
def demoCard1 : Card :=
  { id := "c1", projectId := "p", content := "CODE-A", isClaimed := false,
    claimedAt := none, claimedBy := none }

/-- A second concrete unclaimed card. -/
def demoCard2 : Card :=
  { id := "c2", projectId := "p", content := "CODE-B", isClaimed := false,
    claimedAt := none, claimedBy := none }

/-- A concrete database state: one active project with two unclaimed
cards and an empty ledger. -/
def demoSt : DBState :=
  { projects := [demoProject], cards := [demoCard1, demoCard2], records := [] }

/-- The state after identity `ip1` has claimed card `c1` of the demo
project. -/
def demoStClaimed : DBState :=
  (claimCard demoSt "p" "c1" "ip1" (some "u1") "t1" "r1").2

/-- A state built from the empty database by the public operations:
after `createProject`. -/
def demoReach1 : DBState :=
  (createProject { projects := [], cards := [], records := [] }
    "Demo" "secret123" "admin-pass" none true true "p" "t0").2

/-- ... after `addCards` with two cards. -/
def demoReach2 : DBState :=
  (addCards demoReach1 "p" ["A", "B"] ["c1", "c2"] "t0").2

/-- ... after `ip1` claimed card `c1`. -/
def demoReach3 : DBState :=
  (claimCard demoReach2 "p" "c1" "ip1" (some "u1") "t1" "r1").2

/-- ... after `ip2` also claimed card `c2`: the pool is exhausted. -/
def demoReach4 : DBState :=
  (claimCard demoReach3 "p" "c2" "ip2" (some "u2") "t2" "r2").2

/-- The project row of `demoReach3`. -/
def demoReachProject : Project :=
  { id := "p", name := "Demo", password := "secret123",
    adminPassword := "admin-pass", description := none, isActive := true,
    limitOnePerUser := true, totalCards := 2, claimedCards := 1,
    createdAt := "t0", updatedAt := "t0" }

/-- Concrete run of the create-project handler on the demo state. -/
def demoCreate : Option (Project × Nat) × DBState :=
  createProjectHandler demoSt "Demo2" "secret456" "admin2-pass" none
    ["A", "B", "A"] "p2" ["d1", "d2"] "t5"

/-- Concrete run of the add-cards handler on the demo state. -/
def demoAdd : Option (Nat × Nat) × DBState :=
  addCardsHandler demoSt "p" "admin-pass" ["X", "X", "Y"] true ["c3", "c4"] "t3"

/-- Unpack a successful `getCard` lookup. -/
lemma getCard_spec {st : DBState} {pid cid : String} {c : Card}
    (h : getCard st pid cid = some c) :
    c ∈ st.cards ∧ c.projectId = pid ∧ c.id = cid := by
  have hp := List.find?_some h
  simp only [Bool.and_eq_true, beq_iff_eq] at hp
  exact ⟨List.mem_of_find?_eq_some h, hp.1, hp.2⟩

/-- Unpack a successful `getProject` lookup. -/
lemma getProject_spec {st : DBState} {pid : String} {p : Project}
    (h : getProject st pid = some p) : p ∈ st.projects ∧ p.id = pid := by
  have hp := List.find?_some h
  simp only [beq_iff_eq] at hp
  exact ⟨List.mem_of_find?_eq_some h, hp⟩

/-- Unpack a successful `hasUserClaimed` lookup. -/
lemma hasUserClaimed_spec {st : DBState} {pid ip : String} {r : ClaimRecord}
    (h : hasUserClaimed st pid ip = some r) :
    r ∈ st.records ∧ r.projectId = pid ∧ r.ipHash = ip := by
  have hp := List.find?_some h
  simp only [Bool.and_eq_true, beq_iff_eq] at hp
  exact ⟨List.mem_of_find?_eq_some h, hp.1, hp.2⟩

/-- With `Nodup` card ids, two rows sharing an id are the same row. -/
lemma card_eq_of_id_eq {st : DBState} {a b : Card}
    (hnd : (cardIds st).Nodup) (ha : a ∈ st.cards) (hb : b ∈ st.cards)
    (h : a.id = b.id) : a = b :=
  List.inj_on_of_nodup_map hnd ha hb h

/-- With `Nodup` project ids, two rows sharing an id are the same row. -/
lemma project_eq_of_id_eq {st : DBState} {a b : Project}
    (hnd : (projIds st).Nodup) (ha : a ∈ st.projects) (hb : b ∈ st.projects)
    (h : a.id = b.id) : a = b :=
  List.inj_on_of_nodup_map hnd ha hb h

/-- `updateProject` only writes the `projects` table. -/
lemma updateProject_cards (st : DBState) (id : String) (u : ProjectUpdates)
    (now : String) : (updateProject st id u now).2.cards = st.cards := by
  cases h : getProject st id <;> simp [updateProject, h]

/-- `updateProject` leaves the ledger untouched. -/
lemma updateProject_records (st : DBState) (id : String) (u : ProjectUpdates)
    (now : String) : (updateProject st id u now).2.records = st.records := by
  cases h : getProject st id <;> simp [updateProject, h]

/-- A claimed row passes through the conditional `UPDATE` unchanged. -/
lemma mem_markClaimedRows_of_claimed {cards : List Card} {card : Card}
    (hc : card ∈ cards) (hcl : card.isClaimed = true) (cid ip now : String) :
    card ∈ markClaimedRows cards cid ip now := by
  unfold markClaimedRows
  have heq : (if card.id = cid ∧ card.isClaimed = false then
      { card with isClaimed := true, claimedAt := some now, claimedBy := some ip }
      else card) = card := by
    simp [hcl]
  exact heq ▸ List.mem_map_of_mem _ hc

/-- A claimed row survives the whole claim batch unchanged. -/
lemma mem_claimBatch_cards {st : DBState} {card : Card}
    (hc : card ∈ st.cards) (hcl : card.isClaimed = true)
    (pid cid content ip : String) (u : Option String) (now rid : String) :
    card ∈ (claimBatch st pid cid content ip u now rid).2.cards := by
  unfold claimBatch; split
  · exact hc
  · exact mem_markClaimedRows_of_claimed hc hcl cid ip now

/-- `find?` through a map that does not change the predicate's verdict. -/
lemma find?_map_congr {α : Type} (g : α → α) (p q : α → Bool) (l : List α)
    (h : ∀ x, p (g x) = q x) : (l.map g).find? p = (l.find? q).map g := by
  rw [List.find?_map]
  have hpq : p ∘ g = q := funext h
  rw [hpq]

/-- The conditional card `UPDATE` commutes with `getCard`-style lookups:
it only rewrites the row the lookup would have returned. -/
lemma find?_markClaimedRows (cards : List Card) (pid cid cid' ip now : String) :
    (markClaimedRows cards cid' ip now).find? (fun c => c.projectId == pid && c.id == cid)
      = (cards.find? (fun c => c.projectId == pid && c.id == cid)).map (fun c =>
          if c.id = cid' ∧ c.isClaimed = false then
            { c with isClaimed := true, claimedAt := some now, claimedBy := some ip }
          else c) := by
  unfold markClaimedRows
  refine find?_map_congr _ _ _ _ (fun x => ?_)
  by_cases h : x.id = cid' ∧ x.isClaimed = false <;> simp [h]

/-- The `claimed_cards` bump commutes with `getProject`. -/
lemma find?_bumpClaimed (projects : List Project) (pid pid' : String) :
    (projects.map (fun p =>
        if p.id == pid' then { p with claimedCards := p.claimedCards + 1 } else p)).find?
        (fun p => p.id == pid)
      = (projects.find? (fun p => p.id == pid)).map (fun p =>
          if p.id == pid' then { p with claimedCards := p.claimedCards + 1 } else p) := by
  refine find?_map_congr _ _ _ _ (fun x => ?_)
  by_cases h : x.id == pid' <;> simp [h]

/-- Claim C9: a claim attempt failing validation is rejected with the
matching failure — absent project gives NotFound (404), inactive project
gives Inactive (403) regardless of the password, wrong password on an
active project gives BadPassword (401) — the checks run in that order,
and the state is returned unchanged in every case. -/
theorem claim_C9 (st : DBState) (pid pw ip u : String) (r : Nat) (now rid : String)
    (hpid : pid ≠ "") (hpw : pw ≠ "") :
    (getProject st pid = none → handleClaim st pid pw ip u r now rid = (.notFound, st))
    ∧ (∀ proj, getProject st pid = some proj → proj.isActive = false →
        handleClaim st pid pw ip u r now rid = (.inactive, st))
    ∧ (∀ proj, getProject st pid = some proj → proj.isActive = true →
        proj.password ≠ pw →
        handleClaim st pid pw ip u r now rid = (.badPassword, st))
    ∧ httpStatus .notFound = 404 ∧ httpStatus .inactive = 403
    ∧ httpStatus .badPassword = 401 := by
  refine ⟨fun h => ?_, fun proj h hact => ?_, fun proj h hact hne => ?_, rfl, rfl, rfl⟩ <;>
    simp [handleClaim, hpid, hpw, h, *]

/-- Witness for C9 at a concrete input: a wrong password on the demo
project is rejected as BadPassword with the state untouched. -/
theorem claim_C9_witness :
    handleClaim demoSt "p" "wrong-pass" "ip9" "u9" 0 "t9" "r9" = (.badPassword, demoSt) :=
  (claim_C9 demoSt "p" "wrong-pass" "ip9" "u9" 0 "t9" "r9"
      (by decide) (by decide)).2.2.1 demoProject (by decide) (by decide) (by decide)

/-- Claim C2 (divergence witness): in the interleaved schedule where two
requests by distinct identities both pass `claimCard`'s pre-read before
either batch commits, BOTH calls return the claimed card object — the
loser is not told apart — and the committed state carries two ledger
rows and `claimed_cards = 2` while only one card row is claimed. -/
theorem claim_C2_race :
    (claimCardRace demoSt "p" "c1" "ipA" "ipB" (some "uA") (some "uB") "t1" "t2" "rA" "rB").1
        = some { demoCard1 with isClaimed := true, claimedAt := some "t1", claimedBy := some "ipA" }
    ∧ (claimCardRace demoSt "p" "c1" "ipA" "ipB" (some "uA") (some "uB") "t1" "t2" "rA" "rB").2.1
        = some { demoCard1 with isClaimed := true, claimedAt := some "t2", claimedBy := some "ipB" }
    ∧ getProject (claimCardRace demoSt "p" "c1" "ipA" "ipB" (some "uA") (some "uB") "t1" "t2" "rA" "rB").2.2 "p"
        = some { demoProject with claimedCards := 2 }
    ∧ claimedCount (claimCardRace demoSt "p" "c1" "ipA" "ipB" (some "uA") (some "uB") "t1" "t2" "rA" "rB").2.2 "p" = 1
    ∧ recordCount (claimCardRace demoSt "p" "c1" "ipA" "ipB" (some "uA") (some "uB") "t1" "t2" "rA" "rB").2.2 "p" = 2
    ∧ getCard (claimCardRace demoSt "p" "c1" "ipA" "ipB" (some "uA") (some "uB") "t1" "t2" "rA" "rB").2.2 "p" "c1"
        = some { demoCard1 with isClaimed := true, claimedAt := some "t1", claimedBy := some "ipA" } := by
  decide

/-- Claim C7 (counterexample): the engine has no retry loop.  A request
whose pick (made against the pre-claim state) returned `c1` and whose
single allocation attempt then loses the race gets the terminal 500
immediately, with no re-pick, although re-picking in the very state it
failed in would return the still-unclaimed `c2`. -/
theorem claim_C7_counterexample :
    getRandomAvailableCard demoSt "p" 0 = some "c1"
    ∧ claimAfterPick demoStClaimed "p" "c1" "ip2" (some "u2") "t2" "r2"
        = (.raceLost, demoStClaimed)
    ∧ getRandomAvailableCard demoStClaimed "p" 0 = some "c2"
    ∧ httpStatus .raceLost = 500 := by
  decide

/-- Claim C7 (amended): when `DatabaseService.claimCard` fails because
the picked card is gone or already claimed, the engine returns the
race-lost 500 outcome immediately — it makes exactly one allocation
attempt, with no retry and no state change. -/
theorem claim_C7_amended (st : DBState) (pid cid ip : String) (u : Option String)
    (now rid : String)
    (h : ∀ card, getCard st pid cid = some card → card.isClaimed = true) :
    claimAfterPick st pid cid ip u now rid = (.raceLost, st)
    ∧ httpStatus .raceLost = 500 := by
  refine ⟨?_, rfl⟩
  rcases hg : getCard st pid cid with _ | card
  · simp [claimAfterPick, claimCard, hg]
  · simp [claimAfterPick, claimCard, hg, h card hg]

/-- Witness for the amended C7 at a concrete input. -/
theorem claim_C7_amended_witness :
    claimAfterPick demoStClaimed "p" "c1" "ip2" (some "u2") "t2" "r2"
      = (.raceLost, demoStClaimed) :=
  (claim_C7_amended demoStClaimed "p" "c1" "ip2" (some "u2") "t2" "r2"
    (by decide)).1

/-- Claim C5: once a card is claimed (in a state with distinct card ids)
the allocation query never returns its id again, deleting it returns
`false` without writing, claiming it again returns `null` without
writing, and all four public store operations preserve the row — its
content, claimant and timestamp included — byte for byte. -/
theorem claim_C5 (st : DBState) (card : Card)
    (hnd : (cardIds st).Nodup) (hc : card ∈ st.cards) (hcl : card.isClaimed = true) :
    (∀ pid r, getRandomAvailableCard st pid r ≠ some card.id)
    ∧ (∀ pid now, deleteCard st pid card.id now = (false, st))
    ∧ (∀ pid ip u now rid, claimCard st pid card.id ip u now rid = (.notAvailable, st))
    ∧ (∀ name pw apw desc act lim id now,
        card ∈ (createProject st name pw apw desc act lim id now).2.cards)
    ∧ (∀ pid cs ids now, card ∈ (addCards st pid cs ids now).2.cards)
    ∧ (∀ pid cid now, card ∈ (deleteCard st pid cid now).2.cards)
    ∧ (∀ pid cid ip u now rid, card ∈ (claimCard st pid cid ip u now rid).2.cards) := by
  refine ⟨?_, ?_, ?_, ?_, ?_, ?_, ?_⟩
  · -- never allocated again
    intro pid r h
    have hmem := List.get?_mem h
    simp only [List.mem_map, List.mem_filter, Bool.and_eq_true, beq_iff_eq,
      Bool.not_eq_true'] at hmem
    obtain ⟨c', ⟨hc'mem, _, hc'un⟩, hid⟩ := hmem
    have hce : c' = card := card_eq_of_id_eq hnd hc'mem hc hid
    rw [hce, hcl] at hc'un
    exact Bool.noConfusion hc'un
  · -- deleteCard fails silently
    intro pid now
    unfold deleteCard
    cases hg : getCard st pid card.id with
    | none => rfl
    | some c' =>
      obtain ⟨hm, _, hid⟩ := getCard_spec hg
      have hce : c' = card := card_eq_of_id_eq hnd hm hc hid
      rw [hce]
      simp [hcl]
  · -- claimCard returns null
    intro pid ip u now rid
    unfold claimCard
    cases hg : getCard st pid card.id with
    | none => rfl
    | some c' =>
      obtain ⟨hm, _, hid⟩ := getCard_spec hg
      have hce : c' = card := card_eq_of_id_eq hnd hm hc hid
      rw [hce]
      simp [hcl]
  · -- createProject leaves the row alone
    intro name pw apw desc act lim id now
    unfold createProject
    split
    · exact hc
    · exact hc
  · -- addCards leaves the row alone
    intro pid cs ids now
    rcases hg : getProject st pid with _ | proj
    · simp only [addCards, hg]
      exact hc
    · simp only [addCards, hg]
      split
      · show card ∈ (updateProject _ pid _ now).2.cards
        rw [updateProject_cards]
        exact List.mem_append_left _ hc
      · exact hc
  · -- deleteCard of any card leaves a claimed row alone
    intro pid cid now
    rcases hg : getCard st pid cid with _ | c'
    · simp only [deleteCard, hg]
      exact hc
    · obtain ⟨hm, _, hid⟩ := getCard_spec hg
      by_cases hcl' : c'.isClaimed = true
      · simp only [deleteCard, hg, hcl', if_true]
        exact hc
      · have hne : ¬ card.id = cid := by
          intro h
          exact hcl' (by rw [card_eq_of_id_eq hnd hm hc (hid.trans h.symm)]; exact hcl)
        have hmem1 : card ∈ st.cards.filter (fun c => decide ¬ c.id = cid) := by
          simp only [List.mem_filter, decide_eq_true_eq]
          exact ⟨hc, hne⟩
        simp only [deleteCard, hg]
        rw [if_neg hcl']
        split
        · exact hmem1
        · show card ∈ (updateProject _ pid _ now).2.cards
          rw [updateProject_cards]
          exact hmem1
  · -- claimCard of any card leaves a claimed row alone
    intro pid cid ip u now rid
    rcases hg : getCard st pid cid with _ | c'
    · simp only [claimCard, hg]
      exact hc
    · by_cases hcl' : c'.isClaimed = true
      · simp only [claimCard, hg, hcl', if_true]
        exact hc
      · have hbatch := mem_claimBatch_cards hc hcl pid cid c'.content ip u now rid
        rcases hb : claimBatch st pid cid c'.content ip u now rid with ⟨b, st1⟩
        rw [hb] at hbatch
        simp only [claimCard, hg, hb]
        rw [if_neg hcl']
        cases b
        · exact hbatch
        · exact hbatch

/-- Witness for C5 at a concrete input: the card claimed in
`demoStClaimed` is never re-allocated, cannot be deleted, and cannot be
claimed again. -/
theorem claim_C5_witness :
    getRandomAvailableCard demoStClaimed "p" 5 ≠ some "c1"
    ∧ deleteCard demoStClaimed "p" "c1" "t3" = (false, demoStClaimed)
    ∧ claimCard demoStClaimed "p" "c1" "ip9" (some "u9") "t9" "r9"
        = (.notAvailable, demoStClaimed) := by
  have h := claim_C5 demoStClaimed
    { demoCard1 with isClaimed := true, claimedAt := some "t1", claimedBy := some "ip1" }
    (by decide) (by decide) (by decide)
  exact ⟨h.1 "p" 5, h.2.1 "p" "t3", h.2.2.1 "p" "ip9" (some "u9") "t9" "r9"⟩

/-- Claim C1: a successful claim of an unclaimed card marks the card
claimed with the claimant identity and timestamp, appends exactly one
ledger row for `(projectId, ipHash)` carrying a copy of the card's
content, and increments the project's `claimed_cards` by exactly one —
all in the same batch. -/
theorem claim_C1 (st : DBState) (pid cid ip : String) (u : Option String)
    (now rid : String) (proj : Project) (card : Card)
    (hproj : getProject st pid = some proj)
    (hcard : getCard st pid cid = some card)
    (hun : card.isClaimed = false)
    (hnorec : hasUserClaimed st pid ip = none)
    (hfresh : ∀ r ∈ st.records, r.id ≠ rid) :
    (claimCard st pid cid ip u now rid).1
        = .ok { card with isClaimed := true, claimedAt := some now, claimedBy := some ip }
    ∧ getCard (claimCard st pid cid ip u now rid).2 pid cid
        = some { card with isClaimed := true, claimedAt := some now, claimedBy := some ip }
    ∧ (claimCard st pid cid ip u now rid).2.records
        = st.records ++
          [{ id := rid, projectId := pid, cardContent := card.content,
             claimedAt := now, ipHash := ip, username := orNull u }]
    ∧ pairRecordCount st pid ip = 0
    ∧ pairRecordCount (claimCard st pid cid ip u now rid).2 pid ip = 1
    ∧ getProject (claimCard st pid cid ip u now rid).2 pid
        = some { proj with claimedCards := proj.claimedCards + 1 } := by
  obtain ⟨hcmem, hcpid, hcid⟩ := getCard_spec hcard
  obtain ⟨hpmem, hpid⟩ := getProject_spec hproj
  have hgate : ¬((st.records.any fun r => r.id == rid) = true
      ∨ (hasUserClaimed st pid ip).isSome = true) := by
    rintro (h | h)
    · simp only [List.any_eq_true, beq_iff_eq] at h
      obtain ⟨r, hr, hrid⟩ := h
      exact hfresh r hr hrid
    · rw [hnorec] at h
      simp at h
  have hcc : claimCard st pid cid ip u now rid =
      (.ok { card with isClaimed := true, claimedAt := some now, claimedBy := some ip },
       { st with
          cards := markClaimedRows st.cards cid ip now,
          records := st.records ++
            [{ id := rid, projectId := pid, cardContent := card.content,
               claimedAt := now, ipHash := ip, username := orNull u }],
          projects := st.projects.map (fun p =>
            if p.id == pid then { p with claimedCards := p.claimedCards + 1 } else p) }) := by
    simp only [claimCard, hcard]
    rw [if_neg (by simp [hun] : ¬ card.isClaimed = true)]
    simp only [claimBatch]
    rw [if_neg hgate]
  have hnorecs : ∀ r ∈ st.records, ¬(r.projectId == pid && r.ipHash == ip) = true := by
    intro r hr
    exact List.find?_eq_none.mp hnorec r hr
  rw [hcc]
  refine ⟨rfl, ?_, rfl, ?_, ?_, ?_⟩
  · -- the card row is now the claimed row
    show (markClaimedRows st.cards cid ip now).find? _ = _
    rw [find?_markClaimedRows]
    have hfind : st.cards.find? (fun c => c.projectId == pid && c.id == cid) = some card := hcard
    rw [hfind]
    simp [hcid, hun]
  · -- no prior ledger row for the pair
    unfold pairRecordCount
    rw [List.filter_eq_nil_iff.mpr hnorecs]
    rfl
  · -- exactly one ledger row for the pair afterwards
    unfold pairRecordCount
    show ((st.records ++ [_]).filter _).length = 1
    rw [List.filter_append, List.filter_eq_nil_iff.mpr hnorecs]
    simp
  · -- the project counter went up by one
    show (st.projects.map _).find? _ = _
    rw [find?_bumpClaimed]
    have hfind : st.projects.find? (fun p => p.id == pid) = some proj := hproj
    rw [hfind]
    simp [hpid]

/-- Witness for C1 at a concrete input: claiming `c1` of the demo
project by a fresh identity. -/
theorem claim_C1_witness :
    getCard (claimCard demoSt "p" "c1" "ip1" (some "u1") "t1" "r1").2 "p" "c1"
        = some { demoCard1 with isClaimed := true, claimedAt := some "t1", claimedBy := some "ip1" }
    ∧ pairRecordCount (claimCard demoSt "p" "c1" "ip1" (some "u1") "t1" "r1").2 "p" "ip1" = 1
    ∧ getProject (claimCard demoSt "p" "c1" "ip1" (some "u1") "t1" "r1").2 "p"
        = some { demoProject with claimedCards := 1 } := by
  have h := claim_C1 demoSt "p" "c1" "ip1" (some "u1") "t1" "r1" demoProject demoCard1
    (by decide) (by decide) (by decide) (by decide) (by decide)
  exact ⟨h.2.1, h.2.2.2.2.1, h.2.2.2.2.2⟩

/-- After a successful claim committed the tri-part batch, a repeated
request by the same identity against the updated state short-circuits on
the fresh ledger row: it succeeds with the recorded content and writes
nothing. -/
lemma handleClaim_after_success (st : DBState) (pid pw ip u' : String) (r' : Nat)
    (now' rid' : String) (proj : Project) (rec : ClaimRecord) (cardsNew : List Card)
    (hin : ¬(pid = "" ∨ pw = ""))
    (hact : proj.isActive = true) (hpw : proj.password = pw)
    (hflag : proj.limitOnePerUser = true)
    (hrecnone : hasUserClaimed st pid ip = none)
    (hproj : getProject st pid = some proj)
    (hrpid : rec.projectId = pid) (hrip : rec.ipHash = ip) :
    handleClaim
        { projects := st.projects.map (fun p =>
            if p.id == pid then { p with claimedCards := p.claimedCards + 1 } else p),
          cards := cardsNew,
          records := st.records ++ [rec] } pid pw ip u' r' now' rid'
      = (.alreadyClaimed rec.cardContent,
         { projects := st.projects.map (fun p =>
             if p.id == pid then { p with claimedCards := p.claimedCards + 1 } else p),
           cards := cardsNew,
           records := st.records ++ [rec] }) := by
  have hproj2 : getProject
      { projects := st.projects.map (fun p =>
          if p.id == pid then { p with claimedCards := p.claimedCards + 1 } else p),
        cards := cardsNew,
        records := st.records ++ [rec] } pid
      = some { proj with claimedCards := proj.claimedCards + 1 } := by
    show (st.projects.map _).find? _ = _
    rw [find?_bumpClaimed]
    have hfind : st.projects.find? (fun p => p.id == pid) = some proj := hproj
    rw [hfind]
    simp [(getProject_spec hproj).2]
  have hrec2 : hasUserClaimed
      { projects := st.projects.map (fun p =>
          if p.id == pid then { p with claimedCards := p.claimedCards + 1 } else p),
        cards := cardsNew,
        records := st.records ++ [rec] } pid ip = some rec := by
    show (st.records ++ [rec]).find? _ = _
    rw [List.find?_append]
    have hfind : st.records.find?
        (fun rr => rr.projectId == pid && rr.ipHash == ip) = none := hrecnone
    rw [hfind]
    simp [hrpid, hrip]
  simp only [handleClaim, hproj2, if_neg hin, hrec2]
  simp [hact, hpw, hflag]

/-- A map that fixes every member is the identity. -/
lemma map_id_of_eq {α : Type} {l : List α} {f : α → α}
    (h : ∀ x ∈ l, f x = x) : l.map f = l := by
  induction l with
  | nil => rfl
  | cons a t ih =>
    simp only [List.map_cons, h a (List.mem_cons_self a t)]
    rw [ih (fun x hx => h x (List.mem_cons_of_mem a hx))]

/-- In a list whose mapped keys are `Nodup`, the elements around a
distinguished occurrence all carry a different key. -/
lemma nodup_map_split {α β : Type} {f : α → β} {s t : List α} {a : α}
    (h : ((s ++ a :: t).map f).Nodup) :
    (∀ x ∈ s, f x ≠ f a) ∧ (∀ x ∈ t, f x ≠ f a) := by
  rw [List.map_append, List.map_cons, List.nodup_append] at h
  obtain ⟨h1, h2, hdisj⟩ := h
  rw [List.nodup_cons] at h2
  constructor
  · intro x hx heq
    exact hdisj (List.mem_map_of_mem f hx) (heq ▸ List.mem_cons_self _ _)
  · intro x hx heq
    exact h2.1 (heq ▸ List.mem_map_of_mem f hx)

/-- Filtered length of a list split around one element. -/
lemma length_filter_append_cons {α : Type} (p : α → Bool) (s t : List α) (a : α) :
    ((s ++ a :: t).filter p).length
      = (s.filter p).length + (if p a then 1 else 0) + (t.filter p).length := by
  rw [List.filter_append, List.filter_cons, List.length_append]
  split <;> simp <;> omega

/-- The conditional card `UPDATE` rewrites exactly the distinguished
unclaimed row when every other row carries a different id. -/
lemma markClaimedRows_split (s t : List Card) (card0 : Card) (ip now : String)
    (hs : ∀ x ∈ s, x.id ≠ card0.id) (ht : ∀ x ∈ t, x.id ≠ card0.id)
    (hun : card0.isClaimed = false) :
    markClaimedRows (s ++ card0 :: t) card0.id ip now
      = s ++ { card0 with
               isClaimed := true, claimedAt := some now,
               claimedBy := some ip } :: t := by
  unfold markClaimedRows
  rw [List.map_append, List.map_cons]
  congr 1
  · exact map_id_of_eq (fun x hx => if_neg (fun hc => hs x hx hc.1))
  · congr 1
    · rw [if_pos ⟨rfl, hun⟩]
    · exact map_id_of_eq (fun x hx => if_neg (fun hc => ht x hx hc.1))

/-- The `DELETE ... WHERE id = ?` statement removes exactly the
distinguished row when every other row carries a different id. -/
lemma filter_ne_split (s t : List Card) (card0 : Card)
    (hs : ∀ x ∈ s, x.id ≠ card0.id) (ht : ∀ x ∈ t, x.id ≠ card0.id) :
    (s ++ card0 :: t).filter (fun c => ¬ c.id = card0.id) = s ++ t := by
  rw [List.filter_append, List.filter_cons]
  have ha : ¬ (decide ¬ card0.id = card0.id) = true := by simp
  rw [if_neg ha]
  congr 1
  · exact List.filter_eq_self.mpr (fun x hx => by
      simpa using hs x hx)
  · exact List.filter_eq_self.mpr (fun x hx => by
      simpa using ht x hx)

/-- Claim C3: on a project enforcing one claim per identity, an identity
that already obtained a card through a successful claim gets, on any
repeated claim request with the correct password, the successful
already-claimed response carrying the same card content, and the state
is returned entirely unchanged. -/
theorem claim_C3 (st : DBState) (pid pw ip u u' : String) (r r' : Nat)
    (now now' rid rid' : String) (proj : Project) (c t : String) (st1 : DBState)
    (hproj : getProject st pid = some proj)
    (hflag : proj.limitOnePerUser = true)
    (h1 : handleClaim st pid pw ip u r now rid = (.granted c t, st1)) :
    handleClaim st1 pid pw ip u' r' now' rid' = (.alreadyClaimed c, st1) := by
  by_cases hin : pid = "" ∨ pw = ""
  · simp [handleClaim, hin] at h1
  simp only [handleClaim, hproj, if_neg hin] at h1
  by_cases hact : proj.isActive = false
  · rw [if_pos hact] at h1
    simp at h1
  rw [if_neg hact] at h1
  by_cases hpw2 : proj.password = pw
  swap
  · rw [if_pos hpw2] at h1
    simp at h1
  rw [if_neg (not_not_intro hpw2), if_pos hflag] at h1
  cases hrec : hasUserClaimed st pid ip with
  | some e =>
    rw [hrec] at h1
    simp at h1
  | none =>
    simp only [hrec] at h1
    cases hpick : getRandomAvailableCard st pid r with
    | none =>
      simp only [hpick] at h1
      simp at h1
    | some cid =>
      simp only [hpick] at h1
      rcases hg : getCard st pid cid with _ | card0
      · simp [claimAfterPick, claimCard, hg] at h1
      by_cases hcl0 : card0.isClaimed = true
      · simp [claimAfterPick, claimCard, hg, hcl0] at h1
      by_cases hgate : (st.records.any fun rr => rr.id == rid) = true
          ∨ (hasUserClaimed st pid ip).isSome = true
      · simp only [claimAfterPick, claimCard, hg] at h1
        rw [if_neg hcl0] at h1
        simp only [claimBatch] at h1
        rw [if_pos hgate] at h1
        simp at h1
      · have hcc : claimCard st pid cid ip (some u) now rid =
            (.ok { card0 with isClaimed := true, claimedAt := some now, claimedBy := some ip },
             { st with
                cards := markClaimedRows st.cards cid ip now,
                records := st.records ++
                  [{ id := rid, projectId := pid, cardContent := card0.content,
                     claimedAt := now, ipHash := ip, username := orNull (some u) }],
                projects := st.projects.map (fun p =>
                  if p.id == pid then { p with claimedCards := p.claimedCards + 1 } else p) }) := by
          simp only [claimCard, hg]
          rw [if_neg hcl0]
          simp only [claimBatch]
          rw [if_neg hgate]
        have hcap : claimAfterPick st pid cid ip (some u) now rid =
            (.granted card0.content now,
             { st with
                cards := markClaimedRows st.cards cid ip now,
                records := st.records ++
                  [{ id := rid, projectId := pid, cardContent := card0.content,
                     claimedAt := now, ipHash := ip, username := orNull (some u) }],
                projects := st.projects.map (fun p =>
                  if p.id == pid then { p with claimedCards := p.claimedCards + 1 } else p) }) := by
          simp only [claimAfterPick, hcc]
        rw [hcap] at h1
        simp only [Prod.mk.injEq, ClaimOutcome.granted.injEq] at h1
        obtain ⟨⟨hceq, hteq⟩, hsteq⟩ := h1
        subst hsteq
        subst hceq
        have hact' : proj.isActive = true := by
          revert hact
          cases proj.isActive <;> simp
        exact handleClaim_after_success st pid pw ip u' r' now' rid' proj _ _
          hin hact' hpw2 hflag hrec hproj rfl rfl

/-- Witness for C3 at a concrete input: `ip1` claims `c1`, then repeats
the request and gets the original content back with no state change. -/
theorem claim_C3_witness :
    handleClaim (handleClaim demoSt "p" "secret123" "ip1" "u1" 0 "t1" "r1").2
        "p" "secret123" "ip1" "u1" 7 "t7" "r7"
      = (.alreadyClaimed "CODE-A", (handleClaim demoSt "p" "secret123" "ip1" "u1" 0 "t1" "r1").2) :=
  claim_C3 demoSt "p" "secret123" "ip1" "u1" "u1" 0 7 "t1" "t7" "r1" "r7"
    demoProject "CODE-A" "t1" (handleClaim demoSt "p" "secret123" "ip1" "u1" 0 "t1" "r1").2
    (by decide) (by decide) (by decide)

/-- Card rows of a foreign project contribute nothing to a count. -/
lemma filter_proj_nil {l : List Card} {pid : String}
    (h : ∀ c ∈ l, c.projectId ≠ pid) :
    l.filter (fun c => c.projectId == pid) = []
    ∧ l.filter (fun c => c.projectId == pid && c.isClaimed) = [] := by
  constructor <;> exact List.filter_eq_nil_iff.mpr (fun c hc => by simp [h c hc])

/-- Ledger rows of a foreign project contribute nothing to a count. -/
lemma filter_rec_nil {l : List ClaimRecord} {pid : String}
    (h : ∀ r ∈ l, r.projectId ≠ pid) :
    l.filter (fun r => r.projectId == pid) = [] :=
  List.filter_eq_nil_iff.mpr (fun r hr => by simp [h r hr])

/-- `createProject` preserves the counter invariant: a rejected insert
writes nothing, a committed insert adds a project with both counters
zero and no rows referencing it. -/
lemma inv_createProject (st : DBState) (name pw apw : String) (desc : Option String)
    (act lim : Bool) (id now : String) (h : Inv st) :
    Inv (createProject st name pw apw desc act lim id now).2 := by
  unfold createProject
  split
  · exact h
  · rename_i hfresh
    have hfresh' : ∀ p ∈ st.projects, p.id ≠ id := by
      intro p hp he
      exact hfresh (List.any_eq_true.mpr ⟨p, hp, by simp [he]⟩)
    have hidnot : id ∉ projIds st := by
      intro hmem
      obtain ⟨p, hp, hpe⟩ := List.mem_map.mp hmem
      exact hfresh' p hp hpe
    have hcards : ∀ c ∈ st.cards, c.projectId ≠ id := by
      intro c hc he
      exact hidnot (he ▸ h.card_proj c hc)
    have hrecs : ∀ r ∈ st.records, r.projectId ≠ id := by
      intro r hr he
      exact hidnot (he ▸ h.rec_proj r hr)
    refine ⟨?_, h.card_nodup, ?_, ?_, ?_, ?_, ?_, h.pair_unique⟩
    · -- project ids stay distinct
      show ((st.projects ++ [_]).map _).Nodup
      rw [List.map_append, List.nodup_append]
      refine ⟨h.proj_nodup, by simp, ?_⟩
      intro a ha hb
      simp only [List.map_cons, List.map_nil, List.mem_singleton] at hb
      exact hidnot (hb ▸ ha)
    · -- every card still references an existing project
      intro c hc
      show c.projectId ∈ (st.projects ++ [_]).map _
      rw [List.map_append]
      exact List.mem_append_left _ (h.card_proj c hc)
    · -- every ledger row still references an existing project
      intro r hr
      show r.projectId ∈ (st.projects ++ [_]).map _
      rw [List.map_append]
      exact List.mem_append_left _ (h.rec_proj r hr)
    · -- total counter
      intro p hp
      rcases List.mem_append.mp hp with hold | hnew
      · exact h.total_eq p hold
      · simp only [List.mem_singleton] at hnew
        subst hnew
        show (0 : Int) = _
        unfold cardCount
        rw [(filter_proj_nil hcards).1]
        rfl
    · -- claimed counter
      intro p hp
      rcases List.mem_append.mp hp with hold | hnew
      · exact h.claimed_eq p hold
      · simp only [List.mem_singleton] at hnew
        subst hnew
        show (0 : Int) = _
        unfold claimedCount
        rw [(filter_proj_nil hcards).2]
        rfl
    · -- ledger counter
      intro p hp
      rcases List.mem_append.mp hp with hold | hnew
      · exact h.records_eq p hold
      · simp only [List.mem_singleton] at hnew
        subst hnew
        show _ = (0 : Int)
        unfold recordCount
        rw [filter_rec_nil hrecs]
        rfl

/-- `addCards` preserves the counter invariant: the batch either throws
(writing nothing) or inserts `cards.length` fresh unclaimed rows for the
project and bumps its `total_cards` by the same amount. -/
lemma inv_addCards (st : DBState) (pid : String) (cs ids : List String)
    (now : String) (h : Inv st) : Inv (addCards st pid cs ids now).2 := by
  cases hp : getProject st pid with
  | none =>
    simp only [addCards, hp]
    exact h
  | some project =>
    simp only [addCards, hp]
    split
    case isFalse => exact h
    case isTrue hgate =>
    obtain ⟨hlen, hndids, hfreshids⟩ := hgate
    obtain ⟨hpmem, hpid⟩ := getProject_spec hp
    set newCards : List Card := (ids.zip cs).map (fun pr =>
      { id := pr.1, projectId := pid, content := pr.2,
        isClaimed := false, claimedAt := none, claimedBy := none }) with hnc
    set st1 : DBState := { st with cards := st.cards ++ newCards } with hst1
    have hp1 : getProject st1 pid = some project := hp
    simp only [updateProject, hp1]
    set T : Int := project.totalCards + (cs.length : Int) with hT
    set g : Project → Project := fun q =>
      if q.id == pid then
        { applyUpdates project { totalCards := some T } now with createdAt := q.createdAt }
      else q with hg
    have hids_eq : newCards.map (fun c => c.id) = ids := by
      rw [hnc, List.map_map]
      exact List.map_fst_zip ids cs (le_of_eq hlen)
    have hnc_pid : ∀ c ∈ newCards, c.projectId = pid := by
      intro c hc
      obtain ⟨pr, _, rfl⟩ := List.mem_map.mp hc
      rfl
    have hnc_unclaimed : ∀ c ∈ newCards, c.isClaimed = false := by
      intro c hc
      obtain ⟨pr, _, rfl⟩ := List.mem_map.mp hc
      rfl
    have hnc_len : newCards.length = cs.length := by
      rw [hnc, List.length_map, List.length_zip ids cs, hlen, min_self]
    have hgid : ∀ q : Project, (g q).id = q.id := by
      intro q
      rw [hg]
      by_cases hq : q.id == pid
      · simp only [hq, if_true]
        show project.id = q.id
        rw [hpid]
        exact (beq_iff_eq.mp hq).symm
      · simp [hq]
    have hproj_ids : (st.projects.map g).map (fun p => p.id) = projIds st := by
      rw [List.map_map]
      exact List.map_congr_left (fun q _ => hgid q)
    refine ⟨?_, ?_, ?_, ?_, ?_, ?_, ?_, h.pair_unique⟩
    · -- project ids unchanged
      show ((st.projects.map g).map _).Nodup
      rw [hproj_ids]
      exact h.proj_nodup
    · -- card ids stay distinct
      show ((st.cards ++ newCards).map _).Nodup
      rw [List.map_append, hids_eq, List.nodup_append]
      refine ⟨h.card_nodup, hndids, ?_⟩
      intro a ha hb
      obtain ⟨c, hc, hce⟩ := List.mem_map.mp ha
      exact hfreshids a hb c hc hce
    · -- cards reference existing projects
      intro c hc
      show c.projectId ∈ (st.projects.map g).map _
      rw [hproj_ids]
      rcases List.mem_append.mp hc with hold | hnew
      · exact h.card_proj c hold
      · rw [hnc_pid c hnew, ← hpid]
        exact List.mem_map_of_mem _ hpmem
    · -- records reference existing projects
      intro r hr
      show r.projectId ∈ (st.projects.map g).map _
      rw [hproj_ids]
      exact h.rec_proj r hr
    · -- total counter
      intro p' hp'
      obtain ⟨q, hq, rfl⟩ := List.mem_map.mp hp'
      show (g q).totalCards = (((st.cards ++ newCards).filter
        (fun c => c.projectId == (g q).id)).length : Int)
      rw [List.filter_append, List.length_append, hgid q]
      by_cases hqid : q.id == pid
      · have hqe : q = project :=
          project_eq_of_id_eq h.proj_nodup hq hpmem (by rw [beq_iff_eq.mp hqid, hpid])
        subst hqe
        have htot : (g q).totalCards = T := by
          rw [hg]
          simp only [hqid, if_true]
          rfl
        rw [htot]
        have hmatch : newCards.filter (fun c => c.projectId == q.id) = newCards :=
          List.filter_eq_self.mpr (fun c hc => by
            simp [hnc_pid c hc, beq_iff_eq.mp hqid])
        rw [hmatch, hnc_len]
        have hold := h.total_eq q hq
        unfold cardCount at hold
        rw [hT, hold]
        push_cast
        ring
      · have hgq : g q = q := by
          rw [hg]
          simp [hqid]
        rw [hgq]
        have hnone : newCards.filter (fun c => c.projectId == q.id) = [] :=
          List.filter_eq_nil_iff.mpr (fun c hc => by
            simp only [beq_iff_eq, hnc_pid c hc]
            intro he
            exact hqid (by simp [he]))
        rw [hnone]
        have hold := h.total_eq q hq
        unfold cardCount at hold
        rw [hold]
        simp
    · -- claimed counter
      intro p' hp'
      obtain ⟨q, hq, rfl⟩ := List.mem_map.mp hp'
      show (g q).claimedCards = (((st.cards ++ newCards).filter
        (fun c => c.projectId == (g q).id && c.isClaimed)).length : Int)
      rw [List.filter_append, List.length_append, hgid q]
      have hnone : newCards.filter (fun c => c.projectId == q.id && c.isClaimed) = [] :=
        List.filter_eq_nil_iff.mpr (fun c hc => by
          simp [hnc_unclaimed c hc])
      rw [hnone]
      have hclq : (g q).claimedCards = q.claimedCards := by
        rw [hg]
        by_cases hqid : q.id == pid
        · simp only [hqid, if_true]
          have hqe : q = project :=
            project_eq_of_id_eq h.proj_nodup hq hpmem (by rw [beq_iff_eq.mp hqid, hpid])
          rw [hqe]
          rfl
        · simp [hqid]
      rw [hclq]
      have hold := h.claimed_eq q hq
      unfold claimedCount at hold
      rw [hold]
      simp
    · -- ledger counter
      intro p' hp'
      obtain ⟨q, hq, rfl⟩ := List.mem_map.mp hp'
      show ((st.records.filter (fun r => r.projectId == (g q).id)).length : Int)
        = (g q).claimedCards
      rw [hgid q]
      have hclq : (g q).claimedCards = q.claimedCards := by
        rw [hg]
        by_cases hqid : q.id == pid
        · simp only [hqid, if_true]
          have hqe : q = project :=
            project_eq_of_id_eq h.proj_nodup hq hpmem (by rw [beq_iff_eq.mp hqid, hpid])
          rw [hqe]
          rfl
        · simp [hqid]
      rw [hclq]
      exact h.records_eq q hq

/-- `deleteCard` preserves the counter invariant: it either writes
nothing, or removes exactly one unclaimed row of the project and
decrements its `total_cards` by one. -/
lemma inv_deleteCard (st : DBState) (pid cid now : String) (h : Inv st) :
    Inv (deleteCard st pid cid now).2 := by
  cases hg : getCard st pid cid with
  | none =>
    simp only [deleteCard, hg]
    exact h
  | some card0 =>
    obtain ⟨hcmem, hcpid, hcid⟩ := getCard_spec hg
    subst hcid
    subst hcpid
    by_cases hcl : card0.isClaimed = true
    · simp only [deleteCard, hg, hcl, if_true]
      exact h
    · simp only [deleteCard, hg]
      rw [if_neg hcl]
      obtain ⟨s, t, hsplit⟩ := List.append_of_mem hcmem
      have hnodups := h.card_nodup
      rw [show cardIds st = st.cards.map (fun c => c.id) from rfl, hsplit] at hnodups
      obtain ⟨hs, ht⟩ := nodup_map_split hnodups
      have hfilter : st.cards.filter (fun c => ¬ c.id = card0.id) = s ++ t := by
        rw [hsplit]
        exact filter_ne_split s t card0 hs ht
      split
      · -- getProject none: impossible, the card references the project
        rename_i heq
        exfalso
        have hnone : st.projects.find? (fun p => p.id == card0.projectId) = none := heq
        have hmem := h.card_proj card0 hcmem
        obtain ⟨p, hp, hpe⟩ := List.mem_map.mp hmem
        have hfp := List.find?_eq_none.mp hnone p hp
        simp [hpe] at hfp
      · rename_i project heq
        have hp2 : getProject st card0.projectId = some project := heq
        obtain ⟨hpmem, hpid2⟩ := getProject_spec hp2
        simp only [updateProject, heq]
        set u : ProjectUpdates := { totalCards := some (project.totalCards - 1) } with hu
        set g : Project → Project := fun q =>
          if q.id == card0.projectId then
            { applyUpdates project u now with createdAt := q.createdAt }
          else q with hg2
        have hgid : ∀ q : Project, (g q).id = q.id := by
          intro q
          rw [hg2]
          by_cases hq : q.id == card0.projectId
          · simp only [hq, if_true]
            show project.id = q.id
            rw [hpid2]
            exact (beq_iff_eq.mp hq).symm
          · simp [hq]
        have hproj_ids : (st.projects.map g).map (fun p => p.id) = projIds st := by
          rw [List.map_map]
          exact List.map_congr_left (fun q _ => hgid q)
        have hgcl : ∀ q ∈ st.projects, (g q).claimedCards = q.claimedCards := by
          intro q hq
          rw [hg2]
          by_cases hqid : q.id == card0.projectId
          · simp only [hqid, if_true]
            have hqe : q = project :=
              project_eq_of_id_eq h.proj_nodup hq hpmem (by rw [beq_iff_eq.mp hqid, hpid2])
            rw [hqe]
            rfl
          · simp [hqid]
        refine ⟨?_, ?_, ?_, ?_, ?_, ?_, ?_, h.pair_unique⟩
        · show ((st.projects.map g).map _).Nodup
          rw [hproj_ids]
          exact h.proj_nodup
        · show ((st.cards.filter _).map _).Nodup
          exact h.card_nodup.sublist ((List.filter_sublist st.cards).map (fun c => c.id))
        · intro c hc
          show c.projectId ∈ (st.projects.map g).map _
          rw [hproj_ids]
          exact h.card_proj c (List.mem_of_mem_filter hc)
        · intro r hr
          show r.projectId ∈ (st.projects.map g).map _
          rw [hproj_ids]
          exact h.rec_proj r hr
        · -- total counter
          intro p' hp'
          obtain ⟨q, hq, rfl⟩ := List.mem_map.mp hp'
          show (g q).totalCards
            = (((st.cards.filter _).filter (fun c => c.projectId == (g q).id)).length : Int)
          rw [hgid q, hfilter, List.filter_append, List.length_append]
          have hold := h.total_eq q hq
          unfold cardCount at hold
          rw [hsplit, length_filter_append_cons] at hold
          by_cases hqid : q.id == card0.projectId
          · have hqe : q = project :=
              project_eq_of_id_eq h.proj_nodup hq hpmem (by rw [beq_iff_eq.mp hqid, hpid2])
            subst hqe
            have htot : (g q).totalCards = q.totalCards - 1 := by
              rw [hg2]
              simp only [hqid, if_true]
              rfl
            rw [htot]
            rw [if_pos (by simp [beq_iff_eq.mp hqid])] at hold
            rw [hold]
            push_cast
            ring
          · have hgq : g q = q := by
              rw [hg2]
              simp [hqid]
            rw [hgq]
            have hne : ¬(card0.projectId == q.id) = true := by
              simp only [beq_iff_eq]
              intro he
              exact hqid (by simp [he])
            rw [if_neg hne] at hold
            rw [hold]
            push_cast
            ring
        · -- claimed counter: the deleted row was unclaimed
          intro p' hp'
          obtain ⟨q, hq, rfl⟩ := List.mem_map.mp hp'
          show (g q).claimedCards
            = (((st.cards.filter _).filter
                (fun c => c.projectId == (g q).id && c.isClaimed)).length : Int)
          rw [hgid q, hfilter, List.filter_append, List.length_append, hgcl q hq]
          have hold := h.claimed_eq q hq
          unfold claimedCount at hold
          rw [hsplit, length_filter_append_cons] at hold
          rw [if_neg (by simp [hcl])] at hold
          rw [hold]
          push_cast
          ring
        · -- ledger counter: records untouched
          intro p' hp'
          obtain ⟨q, hq, rfl⟩ := List.mem_map.mp hp'
          show ((st.records.filter (fun r => r.projectId == (g q).id)).length : Int)
            = (g q).claimedCards
          rw [hgid q, hgcl q hq]
          exact h.records_eq q hq

/-- The conditional card `UPDATE` never changes any row's id. -/
lemma cardIds_markClaimedRows (cards : List Card) (cid ip now : String) :
    (markClaimedRows cards cid ip now).map (fun c => c.id)
      = cards.map (fun c => c.id) := by
  unfold markClaimedRows
  rw [List.map_map]
  refine List.map_congr_left (fun c _ => ?_)
  by_cases hc : c.id = cid ∧ c.isClaimed = false <;> simp [hc]

/-- Filtering through a verdict-preserving rewrite keeps the count. -/
lemma length_filter_map_eq {α : Type} (g : α → α) (p : α → Bool) (l : List α)
    (h : ∀ x, p (g x) = p x) :
    ((l.map g).filter p).length = (l.filter p).length := by
  rw [List.filter_map g l, List.length_map]
  congr 1
  exact List.filter_congr (fun x _ => h x)

/-- `claimCard` preserves the counter invariant: it either writes
nothing (absent or claimed card, or a ledger-constraint rollback) or
claims exactly one row, appends exactly one ledger row for the project,
and bumps its `claimed_cards` by one. -/
lemma inv_claimCard (st : DBState) (pid cid ip : String) (u : Option String)
    (now rid : String) (h : Inv st) :
    Inv (claimCard st pid cid ip u now rid).2 := by
  cases hg : getCard st pid cid with
  | none =>
    simp only [claimCard, hg]
    exact h
  | some card0 =>
    obtain ⟨hcmem, hcpid, hcid⟩ := getCard_spec hg
    subst hcid
    subst hcpid
    by_cases hcl : card0.isClaimed = true
    · simp only [claimCard, hg, hcl, if_true]
      exact h
    · simp only [claimCard, hg]
      rw [if_neg hcl]
      simp only [claimBatch]
      split
      · -- constraint violation: the batch rolled back, nothing written
        rename_i st1 hgate
        split at hgate
        · simp only [Prod.mk.injEq] at hgate
          rw [← hgate.2]
          exact h
        · simp at hgate
      · rename_i st1 hgate
        split at hgate
        · simp at hgate
        · rename_i hcond
          simp only [Prod.mk.injEq, true_and] at hgate
          subst hgate
          rw [not_or] at hcond
          obtain ⟨hfresh, hnosome⟩ := hcond
          have hnorec : hasUserClaimed st card0.projectId ip = none :=
            Option.not_isSome_iff_eq_none.mp hnosome
          have hnorecs : ∀ rr ∈ st.records,
              ¬(rr.projectId == card0.projectId && rr.ipHash == ip) = true := by
            intro rr hrr
            exact List.find?_eq_none.mp hnorec rr hrr
          obtain ⟨s, t, hsplit⟩ := List.append_of_mem hcmem
          have hnodups := h.card_nodup
          rw [show cardIds st = st.cards.map (fun c => c.id) from rfl, hsplit] at hnodups
          obtain ⟨hs, ht⟩ := nodup_map_split hnodups
          have hmark : markClaimedRows st.cards card0.id ip now
              = s ++ { card0 with
                       isClaimed := true, claimedAt := some now,
                       claimedBy := some ip } :: t := by
            rw [hsplit]
            exact markClaimedRows_split s t card0 ip now hs ht
              (by revert hcl; cases card0.isClaimed <;> simp)
          set rec : ClaimRecord :=
            { id := rid, projectId := card0.projectId, cardContent := card0.content,
              claimedAt := now, ipHash := ip, username := orNull u } with hrec
          set g : Project → Project := fun p =>
            if p.id == card0.projectId then { p with claimedCards := p.claimedCards + 1 }
            else p with hgdef
          have hgid : ∀ q : Project, (g q).id = q.id := by
            intro q
            rw [hgdef]
            by_cases hq : q.id == card0.projectId <;> simp [hq]
          have hproj_ids : (st.projects.map g).map (fun p => p.id) = projIds st := by
            rw [List.map_map]
            exact List.map_congr_left (fun q _ => hgid q)
          have hmark_id : ∀ c : Card,
              (if c.id = card0.id ∧ c.isClaimed = false then
                { c with isClaimed := true, claimedAt := some now, claimedBy := some ip }
               else c).id = c.id := by
            intro c
            by_cases hc : c.id = card0.id ∧ c.isClaimed = false <;> simp [hc]
          refine ⟨?_, ?_, ?_, ?_, ?_, ?_, ?_, ?_⟩
          · show ((st.projects.map g).map _).Nodup
            rw [hproj_ids]
            exact h.proj_nodup
          · show ((markClaimedRows st.cards card0.id ip now).map _).Nodup
            rw [cardIds_markClaimedRows]
            exact h.card_nodup
          · intro c hc
            show c.projectId ∈ (st.projects.map g).map _
            rw [hproj_ids]
            unfold markClaimedRows at hc
            obtain ⟨c0, hc0, rfl⟩ := List.mem_map.mp hc
            have hpres : (if c0.id = card0.id ∧ c0.isClaimed = false then
                { c0 with isClaimed := true, claimedAt := some now, claimedBy := some ip }
               else c0).projectId = c0.projectId := by
              by_cases hcc : c0.id = card0.id ∧ c0.isClaimed = false <;> simp [hcc]
            rw [hpres]
            exact h.card_proj c0 hc0
          · intro r hr
            show r.projectId ∈ (st.projects.map g).map _
            rw [hproj_ids]
            rcases List.mem_append.mp hr with hold | hnew
            · exact h.rec_proj r hold
            · simp only [List.mem_singleton] at hnew
              subst hnew
              exact h.card_proj card0 hcmem
          · -- total counter: unchanged on both sides
            intro p' hp'
            obtain ⟨q, hq, rfl⟩ := List.mem_map.mp hp'
            show (g q).totalCards
              = (((markClaimedRows st.cards card0.id ip now).filter
                  (fun c => c.projectId == (g q).id)).length : Int)
            rw [hgid q]
            unfold markClaimedRows
            rw [length_filter_map_eq _ _ _ (fun c => by
              by_cases hcc : c.id = card0.id ∧ c.isClaimed = false <;> simp [hcc])]
            have htot : (g q).totalCards = q.totalCards := by
              rw [hgdef]
              by_cases hqid : q.id == card0.projectId <;> simp [hqid]
            rw [htot]
            exact h.total_eq q hq
          · -- claimed counter: up by one exactly for the card's project
            intro p' hp'
            obtain ⟨q, hq, rfl⟩ := List.mem_map.mp hp'
            show (g q).claimedCards
              = (((markClaimedRows st.cards card0.id ip now).filter
                  (fun c => c.projectId == (g q).id && c.isClaimed)).length : Int)
            rw [hgid q, hmark, length_filter_append_cons]
            have hold := h.claimed_eq q hq
            unfold claimedCount at hold
            rw [hsplit, length_filter_append_cons] at hold
            rw [if_neg (by simp [hcl])] at hold
            by_cases hqid : q.id == card0.projectId
            · have hbump : (g q).claimedCards = q.claimedCards + 1 := by
                rw [hgdef]
                simp [hqid]
              rw [hbump, if_pos (by simp [beq_iff_eq.mp hqid])]
              rw [hold]
              push_cast
              ring
            · have hbump : (g q).claimedCards = q.claimedCards := by
                rw [hgdef]
                simp [hqid]
              have hne : ¬(card0.projectId == q.id && true) = true := by
                simp only [Bool.and_true, beq_iff_eq]
                intro he
                exact hqid (by simp [he])
              rw [hbump, if_neg (by simpa using hne)]
              rw [hold]
          · -- ledger counter: one more row exactly for the card's project
            intro p' hp'
            obtain ⟨q, hq, rfl⟩ := List.mem_map.mp hp'
            show (((st.records ++ [rec]).filter
                (fun r => r.projectId == (g q).id)).length : Int) = (g q).claimedCards
            rw [hgid q, List.filter_append, List.length_append]
            have hold := h.records_eq q hq
            unfold recordCount at hold
            by_cases hqid : q.id == card0.projectId
            · have hbump : (g q).claimedCards = q.claimedCards + 1 := by
                rw [hgdef]
                simp [hqid]
              have hone : ([rec].filter (fun r => r.projectId == q.id)).length = 1 := by
                rw [hrec]
                simp [beq_iff_eq.mp hqid]
              rw [hbump, hone, ← hold]
              push_cast
              ring
            · have hbump : (g q).claimedCards = q.claimedCards := by
                rw [hgdef]
                simp [hqid]
              have hzero : ([rec].filter (fun r => r.projectId == q.id)).length = 0 := by
                rw [hrec]
                have hne2 : ¬(card0.projectId == q.id) = true := by
                  simp only [beq_iff_eq]
                  intro he
                  exact hqid (by simp [he])
                simp [List.filter_cons, hne2]
              rw [hbump, hzero, ← hold]
              push_cast
              ring
          · -- pair uniqueness survives the insert
            intro x y
            show ((st.records ++ [rec]).filter
                (fun r => r.projectId == x && r.ipHash == y)).length ≤ 1
            rw [List.filter_append, List.length_append]
            by_cases hxy : rec.projectId = x ∧ rec.ipHash = y
            · have hzero : (st.records.filter
                  (fun r => r.projectId == x && r.ipHash == y)).length = 0 := by
                rw [hrec] at hxy
                rw [← hxy.1, ← hxy.2]
                have : st.records.filter
                    (fun r => r.projectId == card0.projectId && r.ipHash == ip) = [] :=
                  List.filter_eq_nil_iff.mpr hnorecs
                simp only [hrec]
                rw [this]
                rfl
              have hone : ([rec].filter (fun r => r.projectId == x && r.ipHash == y)).length ≤ 1 := by
                cases hfs : [rec].filter (fun r => r.projectId == x && r.ipHash == y) with
                | nil => simp
                | cons a l =>
                  have := List.length_filter_le (fun r => r.projectId == x && r.ipHash == y) [rec]
                  rw [hfs] at this
                  simpa using this
              omega
            · have hzero : ([rec].filter (fun r => r.projectId == x && r.ipHash == y)).length = 0 := by
                have hnot : ¬(rec.projectId == x && rec.ipHash == y) = true := by
                  simp only [Bool.and_eq_true, beq_iff_eq]
                  exact fun hc => hxy hc
                simp [List.filter, hnot]
              have := h.pair_unique x y
              unfold pairRecordCount at this
              omega

/-- The accumulator-passing form of `removeDuplicateCards` keeps every
element of the accumulator and of the input, and nothing else. -/
lemma rdc_foldl_mem (l : List String) :
    ∀ (acc : List String) (x : String),
      x ∈ l.foldl (fun acc card => if card ∈ acc then acc else acc ++ [card]) acc
      ↔ x ∈ acc ∨ x ∈ l := by
  induction l with
  | nil => simp
  | cons c t ih =>
    intro acc x
    rw [List.foldl_cons, ih]
    by_cases hc : c ∈ acc
    · rw [if_pos hc]
      constructor
      · rintro (hx | hx)
        · exact Or.inl hx
        · exact Or.inr (List.mem_cons_of_mem c hx)
      · rintro (hx | hx)
        · exact Or.inl hx
        · rcases List.mem_cons.mp hx with rfl | hx
          · exact Or.inl hc
          · exact Or.inr hx
    · rw [if_neg hc]
      simp only [List.mem_append, List.mem_singleton, List.mem_cons]
      tauto

/-- The accumulator-passing form keeps the accumulator duplicate-free. -/
lemma rdc_foldl_nodup (l : List String) :
    ∀ (acc : List String), acc.Nodup →
      (l.foldl (fun acc card => if card ∈ acc then acc else acc ++ [card]) acc).Nodup := by
  induction l with
  | nil =>
    intro acc h
    simpa using h
  | cons c t ih =>
    intro acc h
    rw [List.foldl_cons]
    by_cases hc : c ∈ acc
    · rw [if_pos hc]
      exact ih acc h
    · rw [if_neg hc]
      refine ih _ ?_
      rw [List.nodup_append]
      exact ⟨h, List.nodup_singleton c, by
        intro a ha hb
        rw [List.mem_singleton] at hb
        exact hc (hb ▸ ha)⟩

/-- `removeDuplicateCards` returns a duplicate-free list. -/
lemma removeDuplicateCards_nodup (l : List String) :
    (removeDuplicateCards l).Nodup :=
  rdc_foldl_nodup l [] List.nodup_nil

/-- `removeDuplicateCards` keeps exactly the input's elements. -/
lemma removeDuplicateCards_mem (l : List String) (x : String) :
    x ∈ removeDuplicateCards l ↔ x ∈ l := by
  unfold removeDuplicateCards
  rw [rdc_foldl_mem]
  simp

/-- The deduplicated list's length is the number of distinct contents. -/
lemma removeDuplicateCards_length (l : List String) :
    (removeDuplicateCards l).length = l.toFinset.card := by
  have hfs : (removeDuplicateCards l).toFinset = l.toFinset := by
    ext x
    simp [List.mem_toFinset, removeDuplicateCards_mem]
  rw [← hfs]
  exact (List.toFinset_card_of_nodup (removeDuplicateCards_nodup l)).symm

/-- Every reachable state satisfies the counter invariant. -/
lemma reachable_inv {st : DBState} (h : Reachable st) : Inv st := by
  induction h with
  | init =>
    refine ⟨?_, ?_, ?_, ?_, ?_, ?_, ?_, ?_⟩ <;>
      simp [projIds, cardIds, pairRecordCount]
  | create name password adminPassword description isActive limitOnePerUser id now _ ih =>
    exact inv_createProject _ name password adminPassword description
      isActive limitOnePerUser id now ih
  | add projectId cards ids now _ ih =>
    exact inv_addCards _ projectId cards ids now ih
  | del projectId cardId now _ ih =>
    exact inv_deleteCard _ projectId cardId now ih
  | claim projectId cardId ipHash username now recordId _ ih =>
    exact inv_claimCard _ projectId cardId ipHash username now recordId ih

/-- Claim C4: in every state reachable by the public store operations,
each project's `claimed_cards` never exceeds `total_cards`, equals the
number of its claimed card rows, and (when one-claim-per-identity is
enabled) equals the number of its ledger rows. -/
theorem claim_C4 (st : DBState) (h : Reachable st) :
    ∀ p ∈ st.projects,
      p.claimedCards ≤ p.totalCards
      ∧ p.claimedCards = (claimedCount st p.id : Int)
      ∧ (p.limitOnePerUser = true →
          p.claimedCards = (recordCount st p.id : Int)) := by
  intro p hp
  have hinv := reachable_inv h
  refine ⟨?_, hinv.claimed_eq p hp, fun _ => (hinv.records_eq p hp).symm⟩
  rw [hinv.claimed_eq p hp, hinv.total_eq p hp]
  have hle : claimedCount st p.id ≤ cardCount st p.id := by
    unfold claimedCount cardCount
    have hsw : st.cards.filter (fun c => c.projectId == p.id && c.isClaimed)
        = (st.cards.filter (fun c => c.projectId == p.id)).filter
            (fun c => c.isClaimed) := by
      rw [List.filter_filter]
      exact List.filter_congr (fun c _ => Bool.and_comm (c.projectId == p.id) c.isClaimed)
    rw [hsw]
    exact List.length_filter_le _ _
  exact_mod_cast hle

/-- Witness for C4 at a concrete input: the project of `demoReach3`,
reached by create, add-two-cards and one claim. -/
theorem claim_C4_witness :
    demoReachProject.claimedCards ≤ demoReachProject.totalCards
    ∧ demoReachProject.claimedCards = (claimedCount demoReach3 demoReachProject.id : Int)
    ∧ (demoReachProject.limitOnePerUser = true →
        demoReachProject.claimedCards = (recordCount demoReach3 demoReachProject.id : Int)) :=
  claim_C4 demoReach3
    (Reachable.claim "p" "c1" "ip1" (some "u1") "t1" "r1"
      (Reachable.add "p" ["A", "B"] ["c1", "c2"] "t0"
        (Reachable.create "Demo" "secret123" "admin-pass" none true true "p" "t0"
          Reachable.init)))
    demoReachProject (by decide)

/-- Claim C6: on a reachable state, a project enforcing
one-claim-per-identity has at most one ledger row per
`(project, identity)` pair, and the enforcement is storage-level: even
when the picked card passes the unclaimed check, `claimCard`'s insert
hits the `idx_claim_unique` constraint and the whole batch rolls back
with a thrown error, leaving the state unchanged. -/
theorem claim_C6 (st : DBState) (pid ip : String) (proj : Project)
    (h : Reachable st)
    (hproj : getProject st pid = some proj)
    (hflag : proj.limitOnePerUser = true) :
    pairRecordCount st pid ip ≤ 1
    ∧ (∀ cid card u now rid,
        getCard st pid cid = some card → card.isClaimed = false →
        (∃ rr ∈ st.records, rr.projectId = pid ∧ rr.ipHash = ip) →
        claimCard st pid cid ip u now rid = (.conflict, st)) := by
  refine ⟨(reachable_inv h).pair_unique pid ip, ?_⟩
  intro cid card u now rid hcard hun hex
  obtain ⟨r0, hr0, hrp, hri⟩ := hex
  have hsome : (hasUserClaimed st pid ip).isSome = true :=
    List.find?_isSome.mpr ⟨r0, hr0, by simp [hrp, hri]⟩
  simp only [claimCard, hcard]
  rw [if_neg (by simp [hun])]
  simp only [claimBatch]
  rw [if_pos (Or.inr hsome)]

/-- Witness for C6 at a concrete input: `ip1` already holds a ledger row
in `demoReach3`; claiming the unclaimed `c2` for `ip1` hits the unique
index and rolls back. -/
theorem claim_C6_witness :
    pairRecordCount demoReach3 "p" "ip1" ≤ 1
    ∧ claimCard demoReach3 "p" "c2" "ip1" (some "u1") "t2" "r2"
        = (.conflict, demoReach3) := by
  have h := claim_C6 demoReach3 "p" "ip1" demoReachProject
    (Reachable.claim "p" "c1" "ip1" (some "u1") "t1" "r1"
      (Reachable.add "p" ["A", "B"] ["c1", "c2"] "t0"
        (Reachable.create "Demo" "secret123" "admin-pass" none true true "p" "t0"
          Reachable.init)))
    (by decide) (by decide)
  refine ⟨h.1, h.2 "c2"
    { id := "c2", projectId := "p", content := "B", isClaimed := false,
      claimedAt := none, claimedBy := none }
    (some "u1") "t2" "r2" (by decide) (by decide)
    ⟨{ id := "r1", projectId := "p", cardContent := "A", claimedAt := "t1",
       ipHash := "ip1", username := some "u1" }, by decide, rfl, rfl⟩⟩

/-- Claim C8 (counterexample): on a fully exhausted project with
one-claim-per-identity, a repeat request by the identity that already
claimed passes validation yet does NOT get the Exhausted outcome — it
gets the successful already-claimed response carrying the original card
content. -/
theorem claim_C8_counterexample :
    getProject demoReach4 "p"
      = some { demoReachProject with claimedCards := 2 }
    ∧ ({ demoReachProject with claimedCards := 2 } : Project).totalCards
      = ({ demoReachProject with claimedCards := 2 } : Project).claimedCards
    ∧ handleClaim demoReach4 "p" "secret123" "ip1" "u1" 0 "t9" "r9"
      = (.alreadyClaimed "A", demoReach4)
    ∧ (ClaimOutcome.alreadyClaimed "A" = .exhausted) = False := by
  refine ⟨by decide, by decide, by decide, by simp⟩

/-- Claim C8 (amended): a validated claim attempt against a project with
`total_cards = claimed_cards` in a reachable state returns Exhausted
(HTTP 410) with no state change — provided it is not short-circuited by
the prior-claim check (no existing ledger row for the identity when
one-claim-per-identity is set).  Moreover `getRandomAvailableCard`
returns the empty result exactly when the project has no unclaimed
card. -/
theorem claim_C8 (st : DBState) (pid pw ip u : String) (r : Nat) (now rid : String)
    (proj : Project) (h : Reachable st)
    (hpid : pid ≠ "") (hpw : pw ≠ "")
    (hproj : getProject st pid = some proj)
    (hact : proj.isActive = true) (hpass : proj.password = pw)
    (hnodup : proj.limitOnePerUser = true → hasUserClaimed st pid ip = none)
    (hexh : proj.totalCards = proj.claimedCards) :
    handleClaim st pid pw ip u r now rid = (.exhausted, st)
    ∧ httpStatus .exhausted = 410
    ∧ ∀ rn, (getRandomAvailableCard st pid rn = none ↔
        ∀ c ∈ st.cards, c.projectId = pid → c.isClaimed = true) := by
  have hinv := reachable_inv h
  obtain ⟨hpmem, hpide⟩ := getProject_spec hproj
  have hallcl : ∀ c ∈ st.cards, c.projectId = pid → c.isClaimed = true := by
    have h1 := hinv.total_eq proj hpmem
    have h2 := hinv.claimed_eq proj hpmem
    rw [hexh] at h1
    have heq : claimedCount st proj.id = cardCount st proj.id := by
      have h3 := h1.symm.trans h2
      exact_mod_cast h3.symm
    unfold claimedCount cardCount at heq
    have hsw : st.cards.filter (fun c => c.projectId == proj.id && c.isClaimed)
        = (st.cards.filter (fun c => c.projectId == proj.id)).filter
            (fun c => c.isClaimed) := by
      rw [List.filter_filter]
      exact List.filter_congr (fun c _ =>
        Bool.and_comm (c.projectId == proj.id) c.isClaimed)
    rw [hsw] at heq
    have hall := List.filter_length_eq_length.mp heq
    intro c hc hcp
    apply hall
    rw [List.mem_filter]
    exact ⟨hc, by simp [hcp, hpide]⟩
  have hnil : st.cards.filter (fun c => c.projectId == pid && !c.isClaimed) = [] := by
    apply List.filter_eq_nil_iff.mpr
    intro c hc
    simp only [Bool.and_eq_true, beq_iff_eq, Bool.not_eq_true', not_and]
    intro hcp
    rw [hallcl c hc hcp]
    simp
  have hpick : ∀ rn, getRandomAvailableCard st pid rn = none := by
    intro rn
    unfold getRandomAvailableCard
    rw [hnil]
    rfl
  have hnonempty : ∀ rn, (∀ c ∈ st.cards, c.projectId = pid → c.isClaimed = true) →
      getRandomAvailableCard st pid rn = none := fun rn _ => hpick rn
  refine ⟨?_, rfl, fun rn => ⟨fun _ => hallcl, hnonempty rn⟩⟩
  have hin : ¬(pid = "" ∨ pw = "") := by
    rintro (h1 | h2)
    exacts [hpid h1, hpw h2]
  have hdup : (if proj.limitOnePerUser then hasUserClaimed st pid ip else none) = none := by
    cases hfl : proj.limitOnePerUser
    · simp
    · simpa using hnodup hfl
  simp [handleClaim, hproj, if_neg hin, hact, hpass, hdup, hpick r]

/-- Witness for the amended C8 at a concrete input: a fresh identity
against the exhausted `demoReach4` pool. -/
theorem claim_C8_witness :
    handleClaim demoReach4 "p" "secret123" "ip9" "u9" 0 "t9" "r9"
      = (.exhausted, demoReach4) :=
  (claim_C8 demoReach4 "p" "secret123" "ip9" "u9" 0 "t9" "r9"
    { demoReachProject with claimedCards := 2 }
    (Reachable.claim "p" "c2" "ip2" (some "u2") "t2" "r2"
      (Reachable.claim "p" "c1" "ip1" (some "u1") "t1" "r1"
        (Reachable.add "p" ["A", "B"] ["c1", "c2"] "t0"
          (Reachable.create "Demo" "secret123" "admin-pass" none true true "p" "t0"
            Reachable.init))))
    (by decide) (by decide) (by decide) (by decide) (by decide)
    (by decide) (by decide)).1

/-- Claim C10: `ProjectHandler.createProject` always deduplicates the
card batch, and `ProjectHandler.addCards` deduplicates when the
`removeDuplicates` flag (default `true`) holds: both report an added
count equal to the number of distinct contents, and the newly created
project's card rows carry exactly the deduplicated contents — never two
rows with the same content string. -/
theorem claim_C10 (st : DBState)
    (name pw apw : String) (desc : Option String) (cards : List String)
    (id : String) (ids : List String) (now : String)
    (proj : Project) (added : Nat) (st1 : DBState)
    (pid apw2 : String) (cards2 ids2 : List String) (now2 : String)
    (added2 dups2 : Nat) (st2 : DBState)
    (hfresh : ∀ c ∈ st.cards, c.projectId ≠ id)
    (hrun : createProjectHandler st name pw apw desc cards id ids now
      = (some (proj, added), st1))
    (hrun2 : addCardsHandler st pid apw2 cards2 true ids2 now2
      = (some (added2, dups2), st2)) :
    added = cards.toFinset.card
    ∧ (st1.cards.filter (fun c => c.projectId == id)).map (fun c => c.content)
        = removeDuplicateCards cards
    ∧ ((st1.cards.filter (fun c => c.projectId == id)).map (fun c => c.content)).Nodup
    ∧ added2 = cards2.toFinset.card := by
  have hadd2 : added2 = cards2.toFinset.card := by
    simp only [addCardsHandler] at hrun2
    split at hrun2
    · simp at hrun2
    split at hrun2
    · simp at hrun2
    split at hrun2
    · simp at hrun2
    split at hrun2
    · simp at hrun2
    split at hrun2
    · simp at hrun2
    · rename_i val stx heqA
      simp only [Prod.mk.injEq, Option.some.injEq] at hrun2
      obtain ⟨⟨h1, h2⟩, h3⟩ := hrun2
      simp only [addCards, if_true, ite_true] at heqA
      split at heqA
      · simp at heqA
      split at heqA
      case isFalse => simp at heqA
      case isTrue =>
      simp only [Prod.mk.injEq, Option.some.injEq] at heqA
      obtain ⟨hval, hstx⟩ := heqA
      rw [← h1, ← hval]
      show (removeDuplicateCards cards2).length = cards2.toFinset.card
      exact removeDuplicateCards_length cards2
  simp only [createProjectHandler] at hrun
  split at hrun
  · simp at hrun
  split at hrun
  · simp at hrun
  split at hrun
  · simp at hrun
  split at hrun
  · simp at hrun
  split at hrun
  · simp at hrun
  split at hrun
  · simp at hrun
  rename_i project' st1' heq1
  split at hrun
  · simp at hrun
  rename_i n stx heq2
  simp only [Prod.mk.injEq, Option.some.injEq] at hrun
  obtain ⟨⟨hproj_eq, hadded⟩, hst1⟩ := hrun
  -- unpack the createProject success
  simp only [createProject] at heq1
  split at heq1
  · simp at heq1
  simp only [Prod.mk.injEq, Option.some.injEq] at heq1
  obtain ⟨hproj', hst1'⟩ := heq1
  have hpid' : project'.id = id := by
    rw [← hproj']
  -- unpack the addCards success
  simp only [addCards] at heq2
  split at heq2
  · simp at heq2
  rename_i p0 heqp
  split at heq2
  case isFalse => simp at heq2
  case isTrue hgate =>
  obtain ⟨hlen, hndids, hfreshids⟩ := hgate
  simp only [Prod.mk.injEq, Option.some.injEq] at heq2
  obtain ⟨hn, hstx⟩ := heq2
  subst hst1
  rw [← hstx]
  rw [updateProject_cards]
  have hcards_eq : (st1'.cards ++ (ids.zip (removeDuplicateCards cards)).map (fun pr =>
      ({ id := pr.1, projectId := project'.id, content := pr.2,
         isClaimed := false, claimedAt := none, claimedBy := none } : Card))).filter
        (fun c => c.projectId == id)
      = (ids.zip (removeDuplicateCards cards)).map (fun pr =>
        ({ id := pr.1, projectId := project'.id, content := pr.2,
           isClaimed := false, claimedAt := none, claimedBy := none } : Card)) := by
    rw [List.filter_append]
    have h1 : st1'.cards.filter (fun c => c.projectId == id) = [] := by
      apply List.filter_eq_nil_iff.mpr
      intro c hc
      have hcmem : c ∈ st.cards := by
        rw [← hst1'] at hc
        exact hc
      simp [hfresh c hcmem]
    have h2 : ((ids.zip (removeDuplicateCards cards)).map (fun pr =>
        ({ id := pr.1, projectId := project'.id, content := pr.2,
           isClaimed := false, claimedAt := none, claimedBy := none } : Card))).filter
          (fun c => c.projectId == id)
        = (ids.zip (removeDuplicateCards cards)).map (fun pr =>
          ({ id := pr.1, projectId := project'.id, content := pr.2,
             isClaimed := false, claimedAt := none, claimedBy := none } : Card)) := by
      apply List.filter_eq_self.mpr
      intro c hc
      obtain ⟨pr, _, rfl⟩ := List.mem_map.mp hc
      simp [hpid']
    rw [h1, h2]
    rfl
  rw [hcards_eq]
  have hcontents : ((ids.zip (removeDuplicateCards cards)).map (fun pr =>
      ({ id := pr.1, projectId := project'.id, content := pr.2,
         isClaimed := false, claimedAt := none, claimedBy := none } : Card))).map
        (fun c => c.content)
      = removeDuplicateCards cards := by
    rw [List.map_map]
    exact List.map_snd_zip ids (removeDuplicateCards cards) (le_of_eq hlen.symm)
  rw [hcontents]
  refine ⟨?_, rfl, removeDuplicateCards_nodup cards, hadd2⟩
  rw [← hadded]
  exact removeDuplicateCards_length cards

/-- Witness for C10 at concrete inputs: creating a project with cards
`[A, B, A]` reports 2 added and stores contents `[A, B]`; adding
`[X, X, Y]` with the default dedup reports 2 added. -/
theorem claim_C10_witness :
    2 = (["A", "B", "A"] : List String).toFinset.card
    ∧ (demoCreate.2.cards.filter (fun c => c.projectId == "p2")).map (fun c => c.content)
        = removeDuplicateCards ["A", "B", "A"]
    ∧ ((demoCreate.2.cards.filter (fun c => c.projectId == "p2")).map
        (fun c => c.content)).Nodup
    ∧ 2 = (["X", "X", "Y"] : List String).toFinset.card :=
  claim_C10 demoSt "Demo2" "secret456" "admin2-pass" none ["A", "B", "A"]
    "p2" ["d1", "d2"] "t5"
    { id := "p2", name := "Demo2", password := "secret456",
      adminPassword := "admin2-pass", description := none, isActive := true,
      limitOnePerUser := false, totalCards := 2, claimedCards := 0,
      createdAt := "t5", updatedAt := "t5" }
    2 demoCreate.2
    "p" "admin-pass" ["X", "X", "Y"] ["c3", "c4"] "t3" 2 1 demoAdd.2
    (by decide) (by decide) (by decide)

end CDK
